import Mathlib

/-!
# Verification of the ASVZ enrollment bot core (`src/asvz_bot.py`)

This file gives a shallow embedding of the core logic of the enrollment bot
and proves (or refutes) the specified properties about it.  The embedding
translates the Python source directly:

* times are modelled as `Int` seconds (whole-second granularity);
* Python `timedelta` normalisation (`.seconds` is the sub-day component,
  always in `[0, 86400)`) is modelled with `Int.emod`;
* strings are modelled as `List Char`, and the Python string operations
  used by the source (`split`, `strip`, `in`, regex matching per the
  compiled patterns of `re`) are given as executable functions;
* the stateful enrollment loop of `AsvzEnroller.enroll` is modelled as a
  function from per-cycle environment inputs to the list of observable
  events it performs.
-/

namespace AsvzBot

/-! ## Sleep Scheduler (`AsvzEnroller.wait_until`, lines 342-363)

The Python code computes `(enrollment_start - current_time).seconds`, the
sub-day seconds component of the `timedelta`, and sleeps
`seconds - login_before_enrollment_seconds` when that component exceeds the
lead time.  `timedelta` normalises so that the seconds component is
`total mod 86400` with `0 <= seconds < 86400` (days may be negative). -/

/-- `login_before_enrollment_seconds = 1 * 59` from the source. -/
def loginBeforeEnrollmentSeconds : Int := 1 * 59

/-- The `.seconds` component of a Python `timedelta` whose total length is
`total` seconds: `timedelta` is normalised to `days*86400 + seconds` with
`0 ≤ seconds < 86400`, so the component is `total mod 86400`
(`Int.emod`, which is nonnegative for a positive modulus). -/
def tdSecondsComponent (total : Int) : Int := total % 86400

/-- Number of seconds `AsvzEnroller.wait_until(enrollment_start)` sleeps when
invoked at time `now` (both in seconds): the source sleeps
`(enrollment_start - current_time).seconds - 59` whenever
`(enrollment_start - current_time).seconds > 59`, and otherwise returns
without sleeping. -/
def waitUntilSleep (enrollmentStart now : Int) : Int :=
  if loginBeforeEnrollmentSeconds < tdSecondsComponent (enrollmentStart - now) then
    tdSecondsComponent (enrollmentStart - now) - loginBeforeEnrollmentSeconds
  else
    0

/-- The guarded call site in `AsvzEnroller.enroll` (lines 398-399):
`wait_until` is only invoked when `datetime.today() < self.enrollment_start`;
otherwise no sleep happens at all. -/
def enrollGuardedWaitSleep (enrollmentStart now : Int) : Int :=
  if now < enrollmentStart then waitUntilSleep enrollmentStart now else 0

/-! ## Availability Poller (`AsvzEnroller.__wait_for_free_places`, lines 701-724)

Each loop iteration reads the numeric free-places indicator; if it is
positive the method returns; otherwise, if `datetime.today()` is strictly
after `self.lesson_start`, it raises `AsvzBotException` ("Stopping enrollment
because lesson has started"); otherwise it sleeps `retry_interval_sec = 30`
seconds, refreshes the page and retries.  We model the successive readings
as a list of `(capacity, sampleTime)` pairs; an exhausted list means the
modelled horizon ended with the loop still running. -/

/-- `retry_interval_sec = 1 * 30` from the source. -/
def retryIntervalSec : Nat := 1 * 30

/-- Outcome of `__wait_for_free_places`: `Ready i s` means the method
returned on the sample with 0-based index `i` after sleeping `s` seconds in
total; `CapacityExhausted i s` means it raised on sample `i` after sleeping
`s` seconds in total. -/
inductive PollResult where
  | Ready : Nat → Nat → PollResult
  | CapacityExhausted : Nat → Nat → PollResult
deriving DecidableEq, Repr

/-- One loop iteration of `__wait_for_free_places` over the remaining
samples, carrying the index of the current sample and the seconds slept so
far.  Mirrors the source order: capacity test first, then the
lesson-started test, then sleep-and-refresh. -/
def pollGo : List (Nat × Int) → Int → Nat → Nat → Option PollResult
  | [], _, _, _ => none
  | (cap, t) :: rest, lessonStart, i, slept =>
    if 0 < cap then some (.Ready i slept)
    else if lessonStart < t then some (.CapacityExhausted i slept)
    else pollGo rest lessonStart (i + 1) (slept + retryIntervalSec)

/-- `__wait_for_free_places`, given the list of successive
`(capacity, sampleTime)` readings and `self.lesson_start`. -/
def pollUntilAvailable (samples : List (Nat × Int)) (lessonStart : Int) :
    Option PollResult :=
  pollGo samples lessonStart 0 0

/-! ## Enrollment loop (`AsvzEnroller.enroll`, lines 408-471)

The `while not enrolled` loop: when enrollment is already open
(`self.enrollment_start < datetime.today()`) it first runs
`__wait_for_free_places` (which either returns or raises); then it performs
`__organisation_login`; then waits up to 5 minutes for the register button
to become clickable and clicks it; a `TimeoutException` logs that the place
was taken and `continue`s the loop; a successful click is followed by the
verification block reading the confirmation fragment. -/

/-- Environment of one iteration of the `while not enrolled` loop:
whether `self.enrollment_start < datetime.today()` at the loop head, whether
`__wait_for_free_places` finds a free place (otherwise it raises), and
whether the register button becomes clickable within the 5-minute timeout
(otherwise `TimeoutException` is caught and the loop continues). -/
structure CycleIn where
  isOpen : Bool
  pollFree : Bool
  raceOk : Bool
deriving DecidableEq, Repr

/-- Observable events of the enrollment loop. -/
inductive Ev where
  | poll
  | login
  | race
  | clicked
  | raceTimeout
  | verifyEv
deriving DecidableEq, Repr

/-- Final state of the modelled loop. -/
inductive LoopOut where
  | enrolled
  | capacityFail
  | running
deriving DecidableEq, Repr

/-- Events up to the race attempt of one loop iteration, assuming the poll
(if entered) returned: the conditional `__wait_for_free_places`, then
`__organisation_login`, then the `WebDriverWait` on the register button. -/
def cycleHead (c : CycleIn) : List Ev :=
  (if c.isOpen then [Ev.poll] else []) ++ [Ev.login, Ev.race]

/-- Trace and outcome of the `while not enrolled` loop for a list of
per-iteration environments.  A poll that finds no free place once the
lesson has started raises out of the loop (`capacityFail`); a race timeout
`continue`s with the next environment; a successful click ends the loop via
`enrolled = True` after the verification block runs. -/
def loopTrace : List CycleIn → List Ev × LoopOut
  | [] => ([], .running)
  | c :: rest =>
    if c.isOpen && !c.pollFree then ([Ev.poll], .capacityFail)
    else if c.raceOk then (cycleHead c ++ [Ev.clicked, Ev.verifyEv], .enrolled)
    else
      let p := loopTrace rest
      (cycleHead c ++ [Ev.raceTimeout] ++ p.1, p.2)

/-- Adjacency relation of the loop trace: which event may immediately
follow which.  A poll that returns is immediately followed by the login;
the login by the race wait; the race wait by the click or the timeout; the
click by verification; the timeout by the next cycle's poll or login. -/
def adjOK : Ev → Ev → Bool
  | .poll, .login => true
  | .login, .race => true
  | .race, .clicked => true
  | .race, .raceTimeout => true
  | .clicked, .verifyEv => true
  | .raceTimeout, .poll => true
  | .raceTimeout, .login => true
  | _, _ => false

/-- Every pair of consecutive events satisfies `adjOK`. -/
def chainOK : List Ev → Bool
  | [] => true
  | [_] => true
  | a :: b :: rest => adjOK a b && chainOK (b :: rest)

/-! ## Window Calculator (`__get_enrollment_time` lines 499-532,
`__get_lesson_time` lines 534-563)

Both methods take the `innerHTML` of the interval element, compute
`text.split("-")[0].split(",")[1].strip()` and parse the result with
`datetime.strptime(raw, "%d.%m.%Y %H:%M")`; a `ValueError` from `strptime`
is converted into an `AsvzBotException` ("Failed to parse ... start time").
If the text contains no comma before the first hyphen, the `[1]` subscript
raises a bare `IndexError` instead.  Strings are modelled as `List Char`;
`strptime` is modelled after CPython's `_strptime` regexes
(`%d`: `3[01]|[12]\d|0[1-9]|[1-9]`, `%m`: `1[0-2]|0[1-9]|[1-9]`,
`%Y`: four digits, `%H`: `2[0-3]|[0-1]\d|\d`, `%M`: `[0-5]\d|\d`,
whitespace in the format matching one or more whitespace characters, the
whole string consumed) followed by `datetime`'s day-of-month validation. -/

/-- Python `str.split(sep)` for a single-character separator. -/
def splitOnChar (sep : Char) : List Char → List (List Char)
  | [] => [[]]
  | x :: xs =>
    if x = sep then [] :: splitOnChar sep xs
    else
      match splitOnChar sep xs with
      | [] => [[x]]
      | y :: ys => (x :: y) :: ys

/-- Python `str.strip()`: drop whitespace from both ends. -/
def stripWs (l : List Char) : List Char :=
  ((l.dropWhile Char.isWhitespace).reverse.dropWhile Char.isWhitespace).reverse

/-- Numeric value of a digit character. -/
def digitVal (c : Char) : Nat := c.toNat - 48

/-- A 1-or-2-digit field per the CPython `_strptime` regexes: a two-digit
prefix is taken when its value satisfies `valid2`, else a single digit
satisfying `valid1`, else the field fails. -/
def take2or1 (valid2 valid1 : Nat → Bool) : List Char → Option (Nat × List Char)
  | a :: b :: rest =>
    if a.isDigit && b.isDigit && valid2 (digitVal a * 10 + digitVal b) then
      some (digitVal a * 10 + digitVal b, rest)
    else if a.isDigit && valid1 (digitVal a) then some (digitVal a, b :: rest)
    else none
  | [a] => if a.isDigit && valid1 (digitVal a) then some (digitVal a, []) else none
  | [] => none

/-- `%Y`: exactly four digits. -/
def take4Digits : List Char → Option (Nat × List Char)
  | a :: b :: c :: d :: rest =>
    if a.isDigit && b.isDigit && c.isDigit && d.isDigit then
      some ((((digitVal a * 10 + digitVal b) * 10 + digitVal c) * 10 + digitVal d), rest)
    else none
  | _ => none

/-- A literal character of the format string. -/
def expectChar (c : Char) : List Char → Option (List Char)
  | x :: rest => if x = c then some rest else none
  | [] => none

/-- Whitespace in a `strptime` format string matches `\s+`. -/
def takeWsPlus : List Char → Option (List Char)
  | c :: rest =>
    if c.isWhitespace then some (rest.dropWhile Char.isWhitespace) else none
  | [] => none

/-- Gregorian leap year, as implemented by `datetime`. -/
def isLeap (y : Nat) : Bool := (y % 4 == 0 && y % 100 != 0) || y % 400 == 0

/-- Length of a month, as validated by the `datetime` constructor. -/
def daysInMonth (y m : Nat) : Nat :=
  if m = 2 then (if isLeap y then 29 else 28)
  else if m = 4 ∨ m = 6 ∨ m = 9 ∨ m = 11 then 30
  else 31

/-- A parsed `datetime` (date and wall-clock minute). -/
structure PDateTime where
  year : Nat
  month : Nat
  day : Nat
  hour : Nat
  minute : Nat
deriving DecidableEq, Repr

/-- `datetime.strptime(s, "%d.%m.%Y %H:%M")`: the five fields separated by
the literal dots, whitespace and colon of the format, the entire string
consumed, and the resulting date valid for `datetime`. -/
def strptimeDMYHM (l : List Char) : Option PDateTime := do
  let (d, l) ← take2or1 (fun v => 1 ≤ v && v ≤ 31) (fun v => 1 ≤ v && v ≤ 9) l
  let l ← expectChar '.' l
  let (m, l) ← take2or1 (fun v => 1 ≤ v && v ≤ 12) (fun v => 1 ≤ v && v ≤ 9) l
  let l ← expectChar '.' l
  let (y, l) ← take4Digits l
  let l ← takeWsPlus l
  let (h, l) ← take2or1 (fun v => v ≤ 23) (fun v => v ≤ 9) l
  let l ← expectChar ':' l
  let (mi, l) ← take2or1 (fun v => v ≤ 59) (fun v => v ≤ 9) l
  if l.isEmpty && 1 ≤ y && 1 ≤ d && d ≤ daysInMonth y m then
    some ⟨y, m, d, h, mi⟩
  else
    none

/-- Outcome of `__get_enrollment_time` / `__get_lesson_time`. -/
inductive TimeParseOutcome where
  | ok : PDateTime → TimeParseOutcome
  | parseError : List Char → TimeParseOutcome
  | indexError : TimeParseOutcome
deriving DecidableEq, Repr

/-- `text.split("-")[0].split(",")[1].strip()`: `none` when the `[1]`
subscript would raise `IndexError`. -/
def extractLeading (l : List Char) : Option (List Char) :=
  match splitOnChar ',' ((splitOnChar '-' l).headD []) with
  | _ :: second :: _ => some (stripWs second)
  | _ => none

/-- `AsvzEnroller.__get_enrollment_time` on the raw `innerHTML` text of the
enrollment-interval element. -/
def getEnrollmentTime (l : List Char) : TimeParseOutcome :=
  match extractLeading l with
  | none => .indexError
  | some raw =>
    match strptimeDMYHM raw with
    | some dt => .ok dt
    | none => .parseError raw

/-- `AsvzEnroller.__get_lesson_time` on the raw `innerHTML` text of the
session-interval element (identical extraction and parsing). -/
def getLessonTime (l : List Char) : TimeParseOutcome :=
  match extractLeading l with
  | none => .indexError
  | some raw =>
    match strptimeDMYHM raw with
    | some dt => .ok dt
    | none => .parseError raw

/-- The part of the text before the first `-`, i.e. `text.split("-")[0]`. -/
def beforeFirstHyphen (l : List Char) : List Char := l.takeWhile (· ≠ '-')

/-! ## Result Verifier (`AsvzEnroller.enroll` lines 441-468,
`LESSON_ENROLLMENT_NUMBER_REGEX` line 127)

After a successful click the code reads the alert element's `innerHTML`;
if it contains the fixed phrase `"Du hast dich erfolgreich eingeschrieben"`
it logs success, otherwise a warning that enrollment might not have been
successful.  Independently, the participation element's `innerHTML` is
matched against `re.match` of the compiled pattern
`.*Du\shast\sdie\sPlatz\-Nr\.\s(\d+).*`: the leading greedy `.*` cannot
cross a newline, so the literal-and-digits part must start at the latest
position whose preceding characters contain no `'\n'`; the group is the
greedy digit run; the trailing `.*` never fails since `re.match` does not
anchor at the end. -/

/-- `needle` is a prefix of the second list, character by character. -/
def beginsWith : List Char → List Char → Bool
  | [], _ => true
  | _ :: _, [] => false
  | a :: as, b :: bs => a == b && beginsWith as bs

/-- Python's `needle in haystack` substring test. -/
def containsSub (needle : List Char) : List Char → Bool
  | [] => needle.isEmpty
  | c :: rest => beginsWith needle (c :: rest) || containsSub needle rest

/-- Match a literal run of characters, returning the remainder. -/
def matchLit : List Char → List Char → Option (List Char)
  | [], l => some l
  | _ :: _, [] => none
  | a :: as, b :: bs => if a == b then matchLit as bs else none

/-- `\s`: exactly one whitespace character. -/
def oneWs : List Char → Option (List Char)
  | c :: rest => if c.isWhitespace then some rest else none
  | [] => none

/-- Greedy digit run (`\d+` group) and the remainder. -/
def takeDigits : List Char → List Char × List Char
  | [] => ([], [])
  | c :: rest =>
    if c.isDigit then
      match takeDigits rest with
      | (ds, r) => (c :: ds, r)
    else ([], c :: rest)

/-- Match `Du\shast\sdie\sPlatz\-Nr\.\s(\d+)` at the head of the list,
returning the digit group. -/
def matchNumAt (l : List Char) : Option (List Char) := do
  let l ← matchLit "Du".data l
  let l ← oneWs l
  let l ← matchLit "hast".data l
  let l ← oneWs l
  let l ← matchLit "die".data l
  let l ← oneWs l
  let l ← matchLit "Platz-Nr.".data l
  let l ← oneWs l
  let (ds, _) := takeDigits l
  if ds.isEmpty then none else some ds

/-- Scan of `re.match(".*Du\shast\sdie\sPlatz\-Nr\.\s(\d+).*", text)`:
the greedy leading `.*` selects the last start position whose prefix holds
no newline; the accumulator keeps the group of the latest successful start
position seen so far. -/
def findNumberGo : List Char → Option (List Char) → Option (List Char)
  | [], acc => acc
  | c :: rest, acc =>
    let acc2 :=
      match matchNumAt (c :: rest) with
      | some ds => some ds
      | none => acc
    if c == '\n' then acc2 else findNumberGo rest acc2

/-- Captured enrollment-number group of
`LESSON_ENROLLMENT_NUMBER_REGEX.match(participation_text)`, if any. -/
def findNumber (l : List Char) : Option (List Char) := findNumberGo l none

/-- The portal's fixed localized success phrase tested with `in`. -/
def successPhrase : List Char := "Du hast dich erfolgreich eingeschrieben".data

/-- Status reported by the verification block: `success` when the success
phrase is logged, `uncertain` when the "might have not been successful"
warning is logged instead. -/
inductive EnrollStatus where
  | success
  | uncertain
deriving DecidableEq, Repr

/-- The structured outcome of the verification block. -/
structure EnrollmentResult where
  status : EnrollStatus
  enrollmentNumber : Option (List Char)
deriving DecidableEq, Repr

/-- The verification block (lines 441-468): status from the phrase test on
the alert element's text, enrollment number from the regex match on the
participation element's text. -/
def verify (alertText participationText : List Char) : EnrollmentResult :=
  ⟨if containsSub successPhrase alertText then .success else .uncertain,
    findNumber participationText⟩

/-! ## Error taxonomy and exit statuses (C7)

Where each fatal category leaves the process, per the source:
`WindowMismatch` calls `exit(2)` (line 304); the eduid missing-password
`AuthenticationFailure` calls `exit(1)` (line 670); `ParseError`
(`AsvzBotException` from the time parsers), `UnexpectedPageStructure`
(re-raised `NoSuchElementException`) and `CapacityExhausted`
(`AsvzBotException` from `__wait_for_free_places`) propagate out of `main`
uncaught, and CPython terminates a process with an uncaught exception with
exit status 1. -/

/-- The fatal error categories of the design. -/
inductive FatalCategory where
  | parseError
  | windowMismatch
  | authenticationFailure
  | unexpectedPageStructure
  | capacityExhausted
deriving DecidableEq, Repr

/-- Process exit status produced by each fatal category. -/
def exitStatus : FatalCategory → Nat
  | .windowMismatch => 2
  | .parseError => 1
  | .authenticationFailure => 1
  | .unexpectedPageStructure => 1
  | .capacityExhausted => 1

/-! ## SessionHandle scoping (C8)

Each phase of `enroll` (credential check, lines 380-396; enrollment, lines
401-478) opens with `driver = AsvzEnroller.get_driver(...)` inside a `try`
whose `finally` runs `if driver is not None: driver.quit()`.  Python runs
the `finally` block on every exit from the `try` suite: normal return,
any raised exception, and `SystemExit` from `exit()`.  If `get_driver`
itself raises, no handle was created (and the `finally` block's name lookup
fails), so nothing is leaked.  The second phase is only entered when the
first completed without an exception. -/

/-- How the body of a phase (after a successful `get_driver`) ends:
normal completion, a raised exception (`NoSuchElementException`,
`AsvzBotException`, ...), or `SystemExit` from `exit()`. -/
inductive BodyOut where
  | ok
  | raiseErr
  | sysExit
deriving DecidableEq, Repr

/-- Acquisition and release events on session handles, tagged by phase. -/
inductive HandleEv where
  | acquire : Nat → HandleEv
  | release : Nat → HandleEv
deriving DecidableEq, Repr

/-- Handle events of one `try ... finally: driver.quit()` phase and whether
the run continues past it: if `get_driver` succeeds, the handle is acquired
and the `finally` clause releases it on every body outcome; the run
continues only on normal body completion. -/
def phaseTrace (phase : Nat) (acquireOk : Bool) (body : BodyOut) :
    List HandleEv × Bool :=
  if acquireOk then
    ([HandleEv.acquire phase, HandleEv.release phase],
      match body with
      | .ok => true
      | _ => false)
  else ([], false)

/-- Handle events of a whole `enroll()` call: the credential-check phase,
then (only if it completed) the enrollment phase. -/
def enrollHandleTrace (a1 : Bool) (b1 : BodyOut) (a2 : Bool) (b2 : BodyOut) :
    List HandleEv :=
  let p1 := phaseTrace 1 a1 b1
  if p1.2 then p1.1 ++ (phaseTrace 2 a2 b2).1 else p1.1

/-- Scope checker: scanning left to right, at most one handle is open at a
time, only the open handle is released, and no handle stays open at the
end. -/
def wsGo : Option Nat → List HandleEv → Bool
  | none, [] => true
  | some _, [] => false
  | none, .acquire i :: rest => wsGo (some i) rest
  | none, .release _ :: _ => false
  | some _, .acquire _ :: _ => false
  | some i, .release j :: rest => if i = j then wsGo none rest else false

/-- A handle-event trace is well scoped. -/
def wellScoped (t : List HandleEv) : Bool := wsGo none t

/-! ## Credential masking (C9)

The summary logged by `AsvzEnroller.__init__` (lines 371-378) renders the
organisation, username, `"*" * len(password)` and the lesson URL. -/

/-- The summary log line of `AsvzEnroller.__init__`. -/
def summaryLog (org uname pw lessonUrl : List Char) : List Char :=
  "Summary:\n\tOrganisation: ".data ++ org
    ++ "\n\tUsername: ".data ++ uname
    ++ "\n\tPassword: ".data ++ List.replicate pw.length '*'
    ++ "\n\tLesson: ".data ++ lessonUrl

lemma chainOK_cons_cons (a b : Ev) (l : List Ev) :
    chainOK (a :: b :: l) = (adjOK a b && chainOK (b :: l)) := rfl

lemma adjOK_of_race (a : Ev) (h : adjOK a Ev.race = true) : a = Ev.login := by
  cases a <;> first | rfl | exact absurd h (by decide)

lemma chainOK_raceTimeout_cons (t : List Ev) (h : chainOK t = true)
    (hh : t = [] ∨ t.head? = some Ev.poll ∨ t.head? = some Ev.login) :
    chainOK (Ev.raceTimeout :: t) = true := by
  cases t with
  | nil => rfl
  | cons b bs =>
    rcases hh with h0 | h1 | h1 <;>
      [cases h0; skip; skip] <;>
      · simp only [List.head?] at h1
        injection h1 with h1
        subst h1
        simpa [chainOK_cons_cons, adjOK] using h

/-- Structural invariant of the enrollment loop trace: consecutive events
respect `adjOK`, and the trace (if nonempty) starts with a poll or a
login. -/
lemma loopTrace_struct : ∀ ins : List CycleIn,
    chainOK (loopTrace ins).1 = true ∧
      ((loopTrace ins).1 = [] ∨ (loopTrace ins).1.head? = some Ev.poll ∨
        (loopTrace ins).1.head? = some Ev.login)
  | [] => by constructor <;> simp [loopTrace, chainOK]
  | c :: rest => by
    obtain ⟨ih1, ih2⟩ := loopTrace_struct rest
    obtain ⟨o, pf, r⟩ := c
    cases o <;> cases pf <;> cases r <;>
      simp only [loopTrace, cycleHead, Bool.not_true, Bool.not_false,
        Bool.and_true, Bool.and_false, Bool.true_and, Bool.false_and,
        if_true, if_false, List.cons_append, List.nil_append,
        List.append_nil, ite_true, ite_false] <;>
      constructor <;>
      first
        | decide
        | simp [chainOK_cons_cons, adjOK, chainOK_raceTimeout_cons _ ih1 ih2]

/-- In every trace of the enrollment loop, an event at position `i + 1` is
preceded at position `i` by an event allowed by `adjOK`. -/
lemma chainOK_get (t : List Ev) (h : chainOK t = true) :
    ∀ i b, t.get? (i + 1) = some b → ∃ a, t.get? i = some a ∧ adjOK a b = true := by
  induction t with
  | nil => intro i b hb; simp at hb
  | cons x xs ih =>
    intro i b hb
    cases xs with
    | nil => cases i <;> simp at hb
    | cons y ys =>
      have hx : (adjOK x y && chainOK (y :: ys)) = true := (chainOK_cons_cons x y ys) ▸ h
      simp only [Bool.and_eq_true] at hx
      have h2 : chainOK (y :: ys) = true := hx.2
      cases i with
      | zero =>
        refine ⟨x, rfl, ?_⟩
        simp only [List.get?] at hb
        injection hb with hb
        subst hb
        exact hx.1
      | succ j =>
        have := ih h2 j b hb
        exact this

/-- Number of logins equals number of race attempts in every loop trace. -/
lemma loopTrace_count_login_race : ∀ ins : List CycleIn,
    (loopTrace ins).1.count Ev.login = (loopTrace ins).1.count Ev.race
  | [] => rfl
  | c :: rest => by
    have ih := loopTrace_count_login_race rest
    obtain ⟨o, pf, r⟩ := c
    cases o <;> cases pf <;> cases r <;>
      simp_all [loopTrace, cycleHead, List.count_append, List.count_cons]

/-- The first event of a loop trace is never a race attempt. -/
lemma loopTrace_first_not_race (ins : List CycleIn) :
    (loopTrace ins).1.get? 0 ≠ some Ev.race := by
  obtain ⟨-, h⟩ := loopTrace_struct ins
  intro hc
  cases hl : (loopTrace ins).1 with
  | nil => rw [hl] at hc; simp at hc
  | cons a as =>
    rw [hl] at hc h
    simp only [List.get?] at hc
    injection hc with hc
    subst hc
    rcases h with h | h | h <;> simp at h

/-- Complete characterization of the availability-poll loop: it returns on
sample `k` exactly when every earlier sample read zero capacity at a time
not after the lesson start, returning `Ready` when sample `k` is positive
and raising `CapacityExhausted` when sample `k` is zero and strictly after
the lesson start; `retryIntervalSec` seconds are slept per retry. -/
lemma pollGo_characterization :
    ∀ (samples : List (Nat × Int)) (start : Int) (i0 s0 : Nat) (r : PollResult),
      pollGo samples start i0 s0 = some r ↔
        ∃ k c t, samples.get? k = some (c, t) ∧
          (∀ j cj tj, j < k → samples.get? j = some (cj, tj) → cj = 0 ∧ tj ≤ start) ∧
          ((0 < c ∧ r = .Ready (i0 + k) (s0 + retryIntervalSec * k)) ∨
            (c = 0 ∧ start < t ∧
              r = .CapacityExhausted (i0 + k) (s0 + retryIntervalSec * k)))
  | [], start, i0, s0, r => by
    simp [pollGo, List.get?]
  | (c0, t0) :: rest, start, i0, s0, r => by
    have ih := pollGo_characterization rest start (i0 + 1) (s0 + retryIntervalSec)
    by_cases h0 : 0 < c0
    · constructor
      · intro h
        simp only [pollGo, if_pos h0] at h
        injection h with h
        refine ⟨0, c0, t0, by simp, ?_, Or.inl ⟨h0, ?_⟩⟩
        · intro j cj tj hj _
          exact absurd hj (Nat.not_lt_zero j)
        · rw [← h]
          simp
      · rintro ⟨k, c, t, hget, hpre, hcase⟩
        cases k with
        | zero =>
          simp only [List.get?_cons_zero, Option.some.injEq, Prod.mk.injEq] at hget
          obtain ⟨hc, ht⟩ := hget
          rcases hcase with ⟨hcp, hr⟩ | ⟨hcz, -, -⟩
          · simp only [pollGo, if_pos h0]
            rw [hr]
            simp
          · rw [← hc] at hcz
            omega
        | succ k0 =>
          have := hpre 0 c0 t0 (Nat.succ_pos k0) (by simp)
          omega
    · have hc0 : c0 = 0 := by omega
      by_cases h1 : start < t0
      · constructor
        · intro h
          simp only [pollGo, if_neg h0, if_pos h1] at h
          injection h with h
          refine ⟨0, c0, t0, by simp, ?_, Or.inr ⟨hc0, h1, ?_⟩⟩
          · intro j cj tj hj _
            exact absurd hj (Nat.not_lt_zero j)
          · rw [← h]
            simp
        · rintro ⟨k, c, t, hget, hpre, hcase⟩
          cases k with
          | zero =>
            simp only [List.get?_cons_zero, Option.some.injEq, Prod.mk.injEq] at hget
            obtain ⟨hc, ht⟩ := hget
            rcases hcase with ⟨hcp, -⟩ | ⟨-, -, hr⟩
            · omega
            · simp only [pollGo, if_neg h0, if_pos h1]
              rw [hr]
              simp
          | succ k0 =>
            have := hpre 0 c0 t0 (Nat.succ_pos k0) (by simp)
            omega
      · constructor
        · intro h
          simp only [pollGo, if_neg h0, if_neg h1] at h
          obtain ⟨k, c, t, hget, hpre, hcase⟩ := (ih r).mp h
          refine ⟨k + 1, c, t, by simpa using hget, ?_, ?_⟩
          · intro j cj tj hj hg
            cases j with
            | zero =>
              simp only [List.get?_cons_zero, Option.some.injEq, Prod.mk.injEq] at hg
              constructor
              · omega
              · rw [← hg.2]
                omega
            | succ j0 =>
              exact hpre j0 cj tj (by omega) (by simpa using hg)
          · have e1 : i0 + 1 + k = i0 + (k + 1) := by omega
            have e2 : s0 + retryIntervalSec + retryIntervalSec * k
                = s0 + retryIntervalSec * (k + 1) := by
              rw [Nat.mul_succ]
              omega
            rw [e1, e2] at hcase
            exact hcase
        · rintro ⟨k, c, t, hget, hpre, hcase⟩
          cases k with
          | zero =>
            simp only [List.get?_cons_zero, Option.some.injEq, Prod.mk.injEq] at hget
            rcases hcase with ⟨hcp, -⟩ | ⟨-, ht, -⟩
            · omega
            · rw [← hget.2] at ht
              omega
          | succ k0 =>
            simp only [pollGo, if_neg h0, if_neg h1]
            refine (ih r).mpr ⟨k0, c, t, by simpa using hget, ?_, ?_⟩
            · intro j cj tj hj hg
              exact hpre (j + 1) cj tj (by omega) (by simpa using hg)
            · have e1 : i0 + 1 + k0 = i0 + (k0 + 1) := by omega
              have e2 : s0 + retryIntervalSec + retryIntervalSec * k0
                  = s0 + retryIntervalSec * (k0 + 1) := by
                rw [Nat.mul_succ]
                omega
              rw [e1, e2]
              exact hcase

lemma splitOnChar_ne_nil (sep : Char) : ∀ l : List Char, splitOnChar sep l ≠ []
  | [] => by simp [splitOnChar]
  | x :: xs => by
    by_cases hx : x = sep
    · simp [splitOnChar, hx]
    · simp only [splitOnChar, if_neg hx]
      cases hsp : splitOnChar sep xs <;> simp

/-- The first field of `split(sep)` is the text before the first
separator. -/
lemma splitOnChar_headD (sep : Char) : ∀ l : List Char,
    (splitOnChar sep l).headD [] = l.takeWhile (· ≠ sep)
  | [] => rfl
  | x :: xs => by
    by_cases hx : x = sep
    · simp [splitOnChar, hx, List.takeWhile_cons]
    · have ih := splitOnChar_headD sep xs
      simp only [splitOnChar, if_neg hx]
      cases hsp : splitOnChar sep xs with
      | nil => exact absurd hsp (splitOnChar_ne_nil sep xs)
      | cons y ys =>
        rw [hsp] at ih
        simp only [List.headD] at ih ⊢
        simp [List.takeWhile_cons, hx, ih]

lemma takeWhile_self_idem (p : Char → Bool) : ∀ l : List Char,
    (l.takeWhile p).takeWhile p = l.takeWhile p
  | [] => rfl
  | x :: xs => by
    by_cases hx : p x
    · simp [List.takeWhile_cons, hx, takeWhile_self_idem p xs]
    · simp [List.takeWhile_cons, hx]

/-- The window-calculator extraction depends only on the text before the
first hyphen. -/
lemma extractLeading_beforeFirstHyphen (l : List Char) :
    extractLeading (beforeFirstHyphen l) = extractLeading l := by
  unfold extractLeading
  rw [splitOnChar_headD, splitOnChar_headD, beforeFirstHyphen,
    takeWhile_self_idem]

/-- `loopTrace` on a cycle with enrollment open, free places found, and a
race timeout: one poll, one login, one race wait, then the retry. -/
lemma loopTrace_timeout_cons (rest : List CycleIn) :
    loopTrace (⟨true, true, false⟩ :: rest)
      = ([Ev.poll, Ev.login, Ev.race, Ev.raceTimeout] ++ (loopTrace rest).1,
          (loopTrace rest).2) := by
  simp [loopTrace, cycleHead]

/-- C1: the claim states that whenever `opensAt - now > 59` the scheduler
sleeps exactly `(opensAt - now) - 59` and returns at or after `opensAt - 59`,
and that for `opensAt - now ≤ 59` (including past opening times) it returns
without sleeping.  The code compares and sleeps the sub-day
`timedelta.seconds` component instead of the total difference, so for a
difference of exactly two days (172800 s) it sleeps `0` seconds instead of
the claimed `172741`; for a difference of one day plus one minute (86460 s)
it sleeps `1` second instead of the claimed `86401`; and called directly
with an opening time `10` seconds in the past it sleeps `86331` seconds
instead of returning immediately (inside `enroll` that call is guarded by
`now < opensAt`, so only future opening times reach `wait_until`). -/
theorem wait_until_uses_subday_seconds_component :
    waitUntilSleep 172800 0 = 0
      ∧ (59 : Int) < 172800 - 0
      ∧ waitUntilSleep 172800 0 ≠ 172800 - 0 - 59
      ∧ waitUntilSleep 86460 0 = 1
      ∧ waitUntilSleep 86460 0 ≠ 86460 - 0 - 59
      ∧ waitUntilSleep (-10) 0 = 86331
      ∧ enrollGuardedWaitSleep (-10) 0 = 0 := by
  refine ⟨?_, ?_, ?_, ?_, ?_, ?_, ?_⟩ <;> decide

/-- C2: the availability poller returns `Ready` on the first sample with
positive capacity and not earlier, fails with `CapacityExhausted` exactly
when a zero-capacity sample is taken strictly after the session start (and
no earlier sample was positive), and sleeps a fixed `retryIntervalSec = 30`
seconds between samples; in particular, on the capacity sequence
`[0, 0, 0, 3]` with the session start far in the future it returns `Ready`
on the 4th sample (index 3). -/
theorem poll_ready_on_first_free_sample :
    (∀ (samples : List (Nat × Int)) (start : Int) (r : PollResult),
      pollUntilAvailable samples start = some r ↔
        ∃ k c t, samples.get? k = some (c, t) ∧
          (∀ j cj tj, j < k → samples.get? j = some (cj, tj) → cj = 0 ∧ tj ≤ start) ∧
          ((0 < c ∧ r = .Ready k (retryIntervalSec * k)) ∨
            (c = 0 ∧ start < t ∧ r = .CapacityExhausted k (retryIntervalSec * k))))
    ∧ pollUntilAvailable [(0, 0), (0, 30), (0, 60), (3, 90)] 1000000
        = some (.Ready 3 90) := by
  constructor
  · intro samples start r
    have h := pollGo_characterization samples start 0 0 r
    simpa [pollUntilAvailable] using h
  · decide

/-- C3 (counterexample): the claim says every one of the `N + 1`
poll-and-race cycles re-enters the availability poll.  In the code the poll
runs only when `self.enrollment_start < datetime.today()`: with enrollment
not yet open in either cycle (`isOpen = false`), one race timeout followed
by one successful click still yields `Claimed` after 2 cycles and 2 race
attempts, but zero polls. -/
theorem race_retry_skips_poll_before_open :
    (loopTrace [⟨false, true, false⟩, ⟨false, true, true⟩]).2 = LoopOut.enrolled
    ∧ (loopTrace [⟨false, true, false⟩, ⟨false, true, true⟩]).1.count Ev.race = 2
    ∧ (loopTrace [⟨false, true, false⟩, ⟨false, true, true⟩]).1.count Ev.poll = 0 := by
  refine ⟨?_, ?_, ?_⟩ <;> decide

/-- C3 (amended): each claim-control timeout is treated as a lost race and
the poll-and-race loop simply repeats; with `N` consecutive timeouts
followed by one successful click—and enrollment open in every cycle—the
loop ends `enrolled` after exactly `N + 1` cycles, having made exactly
`N + 1` race attempts, re-entered the availability poll `N + 1` times, and
clicked once.  (When enrollment is not yet open at the top of a cycle the
poll is skipped; see the counterexample.) -/
theorem race_retry_claimed_after_n_plus_one (N : Nat) :
    ((loopTrace (List.replicate N ⟨true, true, false⟩ ++ [⟨true, true, true⟩])).2
        = LoopOut.enrolled)
    ∧ (loopTrace (List.replicate N ⟨true, true, false⟩
        ++ [⟨true, true, true⟩])).1.count Ev.race = N + 1
    ∧ (loopTrace (List.replicate N ⟨true, true, false⟩
        ++ [⟨true, true, true⟩])).1.count Ev.poll = N + 1
    ∧ (loopTrace (List.replicate N ⟨true, true, false⟩
        ++ [⟨true, true, true⟩])).1.count Ev.clicked = 1 := by
  induction N with
  | zero => refine ⟨?_, ?_, ?_, ?_⟩ <;> decide
  | succ n ih =>
    obtain ⟨ih1, ih2, ih3, ih4⟩ := ih
    rw [List.replicate_succ, List.cons_append]
    rw [loopTrace_timeout_cons]
    refine ⟨ih1, ?_, ?_, ?_⟩ <;>
      simp [List.count_append, List.count_cons, ih2, ih3, ih4]

/-- C4 (counterexample): within the enrollment phase itself, with
enrollment already open and the race won at once, the trace is
poll, login, race, click, verify: the availability poll (index 0) strictly
precedes the phase's only authentication (index 1), refuting the claimed
order "authentication always precedes availability polling". -/
theorem enroll_polls_before_authentication :
    (loopTrace [⟨true, true, true⟩]).1
        = [Ev.poll, Ev.login, Ev.race, Ev.clicked, Ev.verifyEv]
    ∧ (loopTrace [⟨true, true, true⟩]).1.get? 0 = some Ev.poll
    ∧ (loopTrace [⟨true, true, true⟩]).1.get? 1 = some Ev.login
    ∧ (loopTrace [⟨true, true, true⟩]).1.count Ev.login = 1 := by
  refine ⟨?_, ?_, ?_, ?_⟩ <;> decide

/-- C4 (amended): every enrollment-phase trace respects the cycle order
encoded in `adjOK`: the availability poll (run only when enrollment is
open) is immediately followed by authentication, authentication by the race
attempt, the race by either the click or a timeout, a click by
verification, and a timeout by the next cycle's poll or authentication;
a nonempty trace starts with a poll or an authentication.  In particular
no step begins before the previous one completes, but within each cycle
polling precedes authentication rather than following it. -/
theorem enroll_cycle_event_order (ins : List CycleIn) :
    chainOK (loopTrace ins).1 = true
    ∧ ((loopTrace ins).1 = [] ∨ (loopTrace ins).1.head? = some Ev.poll
        ∨ (loopTrace ins).1.head? = some Ev.login) :=
  loopTrace_struct ins

/-- C5: the window calculator takes only the text before the first hyphen
(the opening timestamp; the closing timestamp is discarded), yields
2023-12-04T10:00 for the documented enrollment-interval text and
2021-05-10T06:55 for the documented session-interval text, and whenever the
extracted leading timestamp fails `strptime("%d.%m.%Y %H:%M")` it fails
with the parse error (`AsvzBotException`). -/
theorem window_calculator_first_timestamp :
    getEnrollmentTime "Mo, 04.12.2023 10:00 - Di, 26.12.2023 23:59".data
        = .ok ⟨2023, 12, 4, 10, 0⟩
    ∧ getLessonTime "Mo, 10.05.2021 06:55 - 08:05".data
        = .ok ⟨2021, 5, 10, 6, 55⟩
    ∧ (∀ l : List Char, getEnrollmentTime (beforeFirstHyphen l) = getEnrollmentTime l)
    ∧ (∀ l : List Char, getLessonTime (beforeFirstHyphen l) = getLessonTime l)
    ∧ (∀ (l raw : List Char), extractLeading l = some raw →
        strptimeDMYHM raw = none → getEnrollmentTime l = .parseError raw)
    ∧ (∀ (l raw : List Char), extractLeading l = some raw →
        strptimeDMYHM raw = none → getLessonTime l = .parseError raw) := by
  refine ⟨by decide, by decide, ?_, ?_, ?_, ?_⟩
  · intro l
    unfold getEnrollmentTime
    rw [extractLeading_beforeFirstHyphen]
  · intro l
    unfold getLessonTime
    rw [extractLeading_beforeFirstHyphen]
  · intro l raw h1 h2
    unfold getEnrollmentTime
    rw [h1]
    simp [h2]
  · intro l raw h1 h2
    unfold getLessonTime
    rw [h1]
    simp [h2]

/-- C5 (witness): a concrete interval text whose leading timestamp is not a
valid `%d.%m.%Y %H:%M` timestamp fails with the parse error. -/
theorem window_calculator_first_timestamp_witness :
    getEnrollmentTime "Mo, 99.99.2023 10:00 - Di, 26.12.2023 23:59".data
      = .parseError "99.99.2023 10:00".data :=
  window_calculator_first_timestamp.2.2.2.2.1 _ _ (by decide) (by decide)

/-- C6 (counterexample): a confirmation fragment containing both the
success phrase and the substring `"Platz-Nr. 42"` is reported as `Success`
but with no enrollment number: `LESSON_ENROLLMENT_NUMBER_REGEX` requires
the digits to be preceded by `Du hast die Platz-Nr. `, so the claimed
result `enrollmentNumber = "42"` fails on this fragment. -/
theorem verify_number_requires_full_pattern :
    containsSub successPhrase
        "Du hast dich erfolgreich eingeschrieben. Platz-Nr. 42".data = true
    ∧ containsSub "Platz-Nr. 42".data
        "Du hast dich erfolgreich eingeschrieben. Platz-Nr. 42".data = true
    ∧ verify "Du hast dich erfolgreich eingeschrieben. Platz-Nr. 42".data
        "Du hast dich erfolgreich eingeschrieben. Platz-Nr. 42".data
        = ⟨.success, none⟩ := by
  refine ⟨?_, ?_, ?_⟩ <;> decide

/-- C6 (amended): the verifier reports `Success` if and only if the
fragment contains the portal's fixed success phrase (`Uncertain`
otherwise), and the enrollment number is extracted only when the digits
follow `Du hast die Platz-Nr. `: on a fragment containing the success
phrase and `"Du hast die Platz-Nr. 42"` it returns `Success` with
enrollment number `"42"`. -/
theorem verify_success_iff_phrase :
    (∀ a p : List Char,
      (verify a p).status = .success ↔ containsSub successPhrase a = true)
    ∧ verify
        "Du hast dich erfolgreich eingeschrieben. Du hast die Platz-Nr. 42".data
        "Du hast dich erfolgreich eingeschrieben. Du hast die Platz-Nr. 42".data
        = ⟨.success, some ['4', '2']⟩ := by
  constructor
  · intro a p
    by_cases h : containsSub successPhrase a <;> simp [verify, h]
  · decide

/-- C7 (counterexample): the claim says distinct fatal categories exit with
distinct statuses, but a parse error (uncaught `AsvzBotException`) and the
eduid authentication failure (`exit(1)`) both terminate the process with
status 1. -/
theorem exit_statuses_collide :
    exitStatus .parseError = exitStatus .authenticationFailure
    ∧ FatalCategory.parseError ≠ FatalCategory.authenticationFailure := by
  refine ⟨?_, ?_⟩ <;> decide

/-- C7 (amended): every fatal category terminates the run with a non-zero
exit status (`WindowMismatch` with 2, all others with 1, so the statuses
are not pairwise distinct), while a lost race never terminates the run:
a loop consisting only of race timeouts keeps running and produces no
failure outcome. -/
theorem fatal_exits_nonzero_lostrace_retries :
    (∀ c : FatalCategory, 0 < exitStatus c)
    ∧ (∀ N : Nat,
        (loopTrace (List.replicate N ⟨true, true, false⟩)).2 = LoopOut.running) := by
  constructor
  · intro c
    cases c <;> decide
  · intro N
    induction N with
    | zero => rfl
    | succ n ih =>
      rw [List.replicate_succ, loopTrace_timeout_cons]
      exact ih

/-- C8: for every combination of driver-creation success and body outcome
(normal completion, raised exception, `SystemExit` from `exit()`) in the
credential-check phase and the enrollment phase, the handle-event trace of
`enroll()` is well scoped: each acquired driver is released before the run
ends, only one handle is ever open, and the first phase's handle is
released before the second phase acquires its own. -/
theorem session_handle_released_every_path (a1 : Bool) (b1 : BodyOut)
    (a2 : Bool) (b2 : BodyOut) :
    wellScoped (enrollHandleTrace a1 b1 a2 b2) = true := by
  cases a1 <;> cases b1 <;> cases a2 <;> cases b2 <;> decide

/-- C9: the summary log renders the password only as a run of `*` of the
same length, so two runs that differ only in the password value but agree
on its length produce identical log output. -/
theorem summary_log_password_length_only (org uname lessonUrl pw1 pw2 : List Char)
    (h : pw1.length = pw2.length) :
    summaryLog org uname pw1 lessonUrl = summaryLog org uname pw2 lessonUrl := by
  simp [summaryLog, h]

/-- C9 (witness): two concrete equal-length passwords give the same summary
log line. -/
theorem summary_log_password_length_only_witness :
    summaryLog "ETH Zürich".data "mmuster".data "hunter22".data
        "https://schalter.asvz.ch/tn/lessons/200949".data
      = summaryLog "ETH Zürich".data "mmuster".data "opensesa".data
        "https://schalter.asvz.ch/tn/lessons/200949".data :=
  summary_log_password_length_only _ _ _ _ _ (by decide)

/-- C10: in every enrollment-loop trace, each race attempt is immediately
preceded by its own organisation login of the same cycle, and the number of
logins equals the number of race attempts: after every lost race, the next
claim attempt has a fresh login between the poll (when run) and the
attempt. -/
theorem fresh_login_before_each_race (ins : List CycleIn) (i : Nat) :
    ((loopTrace ins).1.get? (i + 1) = some Ev.race →
      (loopTrace ins).1.get? i = some Ev.login)
    ∧ (loopTrace ins).1.count Ev.login = (loopTrace ins).1.count Ev.race := by
  constructor
  · intro h
    obtain ⟨hchain, -⟩ := loopTrace_struct ins
    obtain ⟨a, ha, hadj⟩ := chainOK_get _ hchain i _ h
    rw [adjOK_of_race a hadj] at ha
    exact ha
  · exact loopTrace_count_login_race ins

/-- C10 (witness): in the concrete single-cycle trace the race attempt at
index 2 is immediately preceded by the login at index 1. -/
theorem fresh_login_before_each_race_witness :
    (loopTrace [⟨true, true, true⟩]).1.get? 1 = some Ev.login :=
  (fresh_login_before_each_race [⟨true, true, true⟩] 1).1 (by decide)

end AsvzBot
